import Mathlib

/-!
Verification of the sequential download-queue core of the VideoDownloader
repository (`src/main.py`).  The Python source is shallowly embedded below:
pure helpers become Lean functions on `String` / `List Char`, the Qt table
state becomes an explicit `AppState` record, and the `yt_dlp` capability is
an opaque parameter (its outcome and the data it feeds to callbacks are
universally quantified inputs).

Modelling conventions:
  * Python strings are Lean `String`s; `str.strip`, `str.splitlines` and
    `str.lower` are re-implemented over `List Char` (`stripL`, `splitL`,
    `pyLower`).  The whitespace alphabet of the model is the ASCII set
    {space, tab, CR, LF}; line breaks are LF, CRLF and CR, as in the
    source's inputs.
  * Python numbers reaching the progress hook are modelled as exact
    rationals (`PyNum`); the float rendering `f"{x:.kf}"` becomes
    `formatFixed x k` (round-half-up on exact rationals).
  * Exceptions are values: `DlExc` distinguishes the capability's
    `DownloadError` from every other `Exception`, mirroring the two
    `except` arms of `DownloadWorker.run`.
-/

/-- Whitespace set used by the model's `strip`/blank tests
(ASCII subset of Python's `str.strip`). -/
def isSpaceChar (c : Char) : Bool :=
  c == ' ' || c == '\t' || c == '\r' || c == '\n'

/-- `str.strip()` on the character list: drop leading and trailing
whitespace. -/
def stripL (l : List Char) : List Char :=
  ((l.dropWhile isSpaceChar).reverse.dropWhile isSpaceChar).reverse

/-- Worker loop of `str.splitlines()`: `acc` holds the current line
reversed.  Splits on LF, CRLF and CR; a trailing line break does not
produce a final empty line, and the empty string yields no lines. -/
def splitLinesAux : List Char → List Char → List (List Char)
  | [], acc => if acc.isEmpty then [] else [acc.reverse]
  | '\r' :: '\n' :: rest, acc => acc.reverse :: splitLinesAux rest []
  | '\r' :: rest, acc => acc.reverse :: splitLinesAux rest []
  | '\n' :: rest, acc => acc.reverse :: splitLinesAux rest []
  | c :: rest, acc => splitLinesAux rest (c :: acc)

/-- `str.splitlines()` on the character list. -/
def splitL (t : List Char) : List (List Char) :=
  splitLinesAux t []

/-- `s.strip()`. -/
def pyStrip (s : String) : String :=
  String.mk (stripL s.data)

/-- `s.splitlines()`. -/
def pySplitlines (s : String) : List String :=
  (splitL s.data).map String.mk

/-- Python falsiness of `s.strip()` (blank line test `if line.strip()`). -/
def isBlank (s : String) : Bool :=
  (pyStrip s).data.isEmpty

/-- `s.lower()` (ASCII, which covers every message the worker emits). -/
def pyLower (s : String) : String :=
  String.mk (s.data.map Char.toLower)

/-- Python's `needle in hay` substring test. -/
def containsSub (needle hay : List Char) : Bool :=
  hay.tails.any (fun t => needle.isPrefixOf t)

/-- The controller's cancellation heuristic: `"cancel" in message.lower()`. -/
def containsCancel (m : String) : Bool :=
  containsSub "cancel".data (pyLower m).data

/-- Digit-assembly stage of fixed-point rendering: print the integer
`n` (the value already scaled by `10 ^ k` and rounded) with a decimal
point before the last `k` digits. -/
def fixedDigits (n : ℤ) (k : Nat) : String :=
  let m : Nat := n.natAbs
  let ip : Nat := m / 10 ^ k
  let fp : Nat := m % 10 ^ k
  let fpStr : String := toString fp
  let pad : String := String.mk (List.replicate (k - fpStr.length) '0')
  let sign : String := if n < 0 then "-" else ""
  if k == 0 then sign ++ toString ip else sign ++ toString ip ++ "." ++ pad ++ fpStr

/-- Fixed-point rendering of a rational with `k` fractional digits,
modelling Python's `f"{x:.kf}"` (round half up on the exact value). -/
def formatFixed (q : ℚ) (k : Nat) : String :=
  fixedDigits (Int.floor (q * (10 : ℚ) ^ k + 1 / 2)) k

/-- A Python number as delivered by the capability's progress dictionary:
`yt_dlp` hands either an `int` or a `float` (modelled exactly as a
rational). -/
inductive PyNum where
  | pyInt (n : ℤ)
  | pyFloat (q : ℚ)
deriving DecidableEq

/-- Numeric value of a `PyNum`. -/
def PyNum.toQ : PyNum → ℚ
  | .pyInt n => n
  | .pyFloat q => q

/-- The fields of the progress dictionary that `DownloadWorker._progress_hook`
reads.  `none` stands both for a missing key and for `None`; a non-numeric
`speed`/`eta` value is also modelled as `none`, since the hook's
`isinstance` tests treat those identically. -/
structure HookData where
  status : String
  downloaded_bytes : Option PyNum := none
  total_bytes : Option PyNum := none
  total_bytes_estimate : Option PyNum := none
  speed : Option PyNum := none
  eta : Option PyNum := none

/-- Python truthiness filter on an optional number: `None` and `0` are
falsy, every other number is truthy. -/
def pyTruthyNum (v : Option PyNum) : Option PyNum :=
  match v with
  | some x => if x.toQ = 0 then none else some x
  | none => none

/-- `data.get("total_bytes") or data.get("total_bytes_estimate") or 0`. -/
def totalOf (d : HookData) : ℚ :=
  (((pyTruthyNum d.total_bytes).orElse
      (fun _ => pyTruthyNum d.total_bytes_estimate)).map PyNum.toQ).getD 0

/-- The exceptions `DownloadWorker.run` can see: the capability's
`DownloadError` and every other `Exception`, each carrying its `str`. -/
inductive DlExc where
  | downloadError (msg : String)
  | otherExc (msg : String)
deriving DecidableEq

/-- `DownloadWorker._progress_hook`: raises `DownloadError` when the
cancel flag is set, otherwise emits the progress events of the source
(an empty list for a status that is neither `"downloading"` nor
`"finished"`). -/
def progressHook (cancelled : Bool) (d : HookData) : Except DlExc (List (ℚ × String)) :=
  if cancelled then .error (.downloadError "Download canceled by user.")
  else if d.status == "downloading" then
    let downloaded : ℚ := (d.downloaded_bytes.map PyNum.toQ).getD 0
    let total : ℚ := totalOf d
    if 0 < total then
      let percent : ℚ := downloaded / total * 100
      let speed_text : String :=
        match d.speed with
        | some v => formatFixed (v.toQ / 1024 / 1024) 2 ++ " MB/s"
        | none => "N/A"
      let eta_text : String :=
        match d.eta with
        | some (.pyInt n) => toString n ++ "s"
        | _ => "N/A"
      .ok [(percent, formatFixed percent 1 ++ "% | " ++ speed_text ++ " | ETA: " ++ eta_text)]
    else
      .ok [(0, "Downloading...")]
  else if d.status == "finished" then
    .ok [(100, "Download complete, processing file...")]
  else
    .ok []

/-- The `finished` signal emitted by the `try`/`except` tail of
`DownloadWorker.run`, as a function of the cancel flag and the outcome of
the body (directory creation, metadata query and download).
`Except.ok` is the body running to completion; `Except.error` is any
exception it raises, classified by the two `except` arms. -/
def workerRunFinished (cancelled : Bool) (body : Except DlExc Unit) : Bool × String :=
  match body with
  | .ok _ =>
    if cancelled then (false, "Download canceled.")
    else (true, "Download completed successfully.")
  | .error (.downloadError m) =>
    if cancelled then (false, "Download canceled.")
    else (false, "Download failed: " ++ m)
  | .error (.otherExc m) => (false, "Error: " ++ m)

/-- One post-processing step of a preset (`yt_dlp` postprocessor dict). -/
structure PostProc where
  key : String
  preferredcodec : String
  preferredquality : String
deriving DecidableEq

/-- The extractor configuration fragment of one quality preset. -/
structure PresetConfig where
  format : String
  merge_output_format : Option String := none
  postprocessors : List PostProc := []
deriving DecidableEq

/-- The process-wide `QUALITY_PRESETS` table (insertion order of the
source dict). -/
def QUALITY_PRESETS : List (String × PresetConfig) :=
  [("Best (Video + Audio)", { format := "best" }),
   ("1080p (MP4)",
    { format := "bestvideo[height<=1080]+bestaudio/best[height<=1080]/best",
      merge_output_format := some "mp4" }),
   ("720p (MP4)",
    { format := "bestvideo[height<=720]+bestaudio/best[height<=720]/best",
      merge_output_format := some "mp4" }),
   ("Audio Only (MP3)",
    { format := "bestaudio/best",
      postprocessors :=
        [{ key := "FFmpegExtractAudio", preferredcodec := "mp3",
           preferredquality := "192" }] })]

/-- Dictionary lookup in `QUALITY_PRESETS`. -/
def presetLookup (name : String) : Option PresetConfig :=
  (QUALITY_PRESETS.find? (fun p => p.1 == name)).map (fun p => p.2)

/-- `QUALITY_PRESETS.get(name, QUALITY_PRESETS["Best (Video + Audio)"])`
as used by `DownloadWorker.run`.  The inner `getD` default is the
`KeyError` case of the subscription, which cannot occur since the default
key is in the table. -/
def resolvePreset (name : String) : PresetConfig :=
  (presetLookup name).getD ((presetLookup "Best (Video + Audio)").getD { format := "best" })

/-- One row of the queue table: the four cell texts created by
`MainWindow._append_queue_row` (URL, per-row quality combo text, status,
progress). -/
structure QueueEntry where
  url : String
  quality : String
  status : String
  progress : String
deriving DecidableEq

/-- The `MainWindow` state that the queue controller reads and writes:
the table rows plus the control fields of `__init__` and the texts of the
input widgets.  Purely visual state (styling, animations, the log pane,
the progress bar) is not modelled. -/
structure AppState where
  entries : List QueueEntry
  queueRunning : Bool := false
  stopQueueRequested : Bool := false
  currentRow : Option Nat := none
  workerActive : Bool := false
  urlInputText : String := ""
  outputText : String := ""
  cookiesText : String := ""
  globalQuality : String := "Best (Video + Audio)"
  statusMessage : String := ""
deriving DecidableEq

/-- The preset names offered by every quality combo box. -/
def presetNames : List String := QUALITY_PRESETS.map (fun p => p.1)

/-- `_build_row_quality_combo`: the combo shows `quality` when it is a
known preset name and falls back to the default name otherwise. -/
def rowQuality (q : String) : String :=
  if presetNames.contains q then q else "Best (Video + Audio)"

/-- `_append_queue_row`: insert one row at the end with status
`"Queued"` and progress `"0%"`. -/
def appendQueueRow (es : List QueueEntry) (url quality : String) : List QueueEntry :=
  es ++ [{ url := url, quality := rowQuality quality, status := "Queued", progress := "0%" }]

/-- `enqueue_urls`: strip the input; if blank, warn and change nothing;
otherwise append one row per non-blank line (each line stripped), clear
the input and update the status line. -/
def enqueueUrls (st : AppState) : AppState :=
  let raw := pyStrip st.urlInputText
  if raw.data.isEmpty then st
  else
    let urls := ((pySplitlines raw).filter (fun l => !(isBlank l))).map pyStrip
    { st with
      entries := urls.foldl (fun es u => appendQueueRow es u st.globalQuality) st.entries,
      urlInputText := "",
      statusMessage := "Added " ++ toString urls.length ++ " item(s) to queue." }

/-- `_set_row_text` on the status column: overwrite the cell of row
`row` when it exists (all modelled rows have all four cells). -/
def setRowStatus : List QueueEntry → Nat → String → List QueueEntry
  | [], _, _ => []
  | e :: t, 0, s => { e with status := s } :: t
  | e :: t, r + 1, s => e :: setRowStatus t r s

/-- `_set_row_text` on the progress column. -/
def setRowProgress : List QueueEntry → Nat → String → List QueueEntry
  | [], _, _ => []
  | e :: t, 0, p => { e with progress := p } :: t
  | e :: t, r + 1, p => e :: setRowProgress t r p

/-- `_next_queued_row`: index of the first row whose status cell reads
`"Queued"`. -/
def nextQueuedRow (es : List QueueEntry) : Option Nat :=
  es.findIdx? (fun e => e.status == "Queued")

/-- `_quality_for_row`: the row's combo text, with the source's fallback
for a missing cell. -/
def qualityForRow (es : List QueueEntry) (row : Nat) : String :=
  match es.get? row with
  | some e => e.quality
  | none => "Best (Video + Audio)"

/-- `_finish_queue`: stop processing and show the final message. -/
def finishQueue (st : AppState) (message : String) : AppState :=
  { st with queueRunning := false, stopQueueRequested := false,
            currentRow := none, statusMessage := message }

/-- `_start_next_item`: honour a pending stop request, otherwise bind the
first queued row and start its download task.  (The source's defensive
branch for a row without a URL cell is unreachable here because every
modelled row is created by `appendQueueRow` with all cells present.) -/
def startNextItem (st : AppState) : AppState :=
  if st.stopQueueRequested then finishQueue st "Queue stopped."
  else
    match nextQueuedRow st.entries with
    | none => finishQueue st "Queue completed."
    | some row =>
      { st with
        currentRow := some row,
        entries := setRowProgress (setRowStatus st.entries row "Downloading") row "0%",
        workerActive := true,
        statusMessage := "Downloading item " ++ toString (row + 1) ++ "/"
          ++ toString st.entries.length ++ " (" ++ qualityForRow st.entries row ++ ")" }

/-- `start_queue`: returns the new state together with the text of the
modal validation warning, when one is shown. -/
def startQueue (st : AppState) : AppState × Option String :=
  if st.queueRunning then (st, none)
  else if (pyStrip st.outputText).data.isEmpty then
    (st, some "Please select an output folder.")
  else if (nextQueuedRow st.entries).isNone then
    (st, some "Add URLs to the queue first.")
  else
    (startNextItem { st with queueRunning := true, stopQueueRequested := false }, none)

/-- `on_item_finished`: map the task's `finished(success, message)` event
to a terminal row state.  With no current row the source only logs. -/
def onItemFinished (st : AppState) (success : Bool) (message : String) : AppState :=
  match st.currentRow with
  | none => st
  | some row =>
    if success then
      { st with
        entries := setRowProgress (setRowStatus st.entries row "Done") row "100%",
        statusMessage := message }
    else if containsCancel message then
      let progressText :=
        match st.entries.get? row with
        | some e => e.progress
        | none => "0%"
      { st with
        entries := setRowProgress (setRowStatus st.entries row "Canceled") row progressText,
        stopQueueRequested := true,
        statusMessage := message }
    else
      { st with
        entries := setRowProgress (setRowStatus st.entries row "Failed") row "0%",
        statusMessage := message }

/-- `on_thread_finished`: tear down the worker binding and, while the
queue is running, advance to the next item. -/
def onThreadFinished (st : AppState) : AppState :=
  let st' := { st with workerActive := false, currentRow := none }
  if st'.queueRunning then startNextItem st' else st'

/-- Membership test `text() in {"Done", "Failed", "Canceled"}`. -/
def isTerminalStatus (s : String) : Bool :=
  s == "Done" || s == "Failed" || s == "Canceled"

/-- Descending insertion used to model `sorted(..., reverse=True)`. -/
def insertDesc (x : Nat) : List Nat → List Nat
  | [] => [x]
  | y :: t => if y ≤ x then x :: y :: t else y :: insertDesc x t

/-- `sorted(s, reverse=True)` on a list of indices. -/
def sortDesc (l : List Nat) : List Nat := l.foldr insertDesc []

/-- `remove_selected_items`: a no-op while the queue runs; otherwise
remove the distinct selected rows, highest index first. -/
def removeSelected (st : AppState) (selected : List Nat) : AppState :=
  if st.queueRunning then st
  else
    let rows := sortDesc selected.dedup
    if rows.isEmpty then st
    else
      { st with
        entries := rows.foldl (fun es r => es.eraseIdx r) st.entries,
        statusMessage := "Removed " ++ toString rows.length ++ " item(s)." }

/-- Status test of `clear_finished_items` at row `r`: the row's status
cell reads `"Done"`, `"Failed"` or `"Canceled"` (false for a row without
a status item, as in the source's `if status_item and ...`). -/
def rowTerminalAt (es : List QueueEntry) (r : Nat) : Bool :=
  match es.get? r with
  | some e => isTerminalStatus e.status
  | none => false

/-- `clear_finished_items`: a no-op while the queue runs; otherwise
collect the rows with a terminal status and remove them, highest index
first. -/
def clearFinished (st : AppState) : AppState :=
  if st.queueRunning then st
  else
    let removable := (List.range st.entries.length).filter (fun r => rowTerminalAt st.entries r)
    let entries' := removable.reverse.foldl (fun es r => es.eraseIdx r) st.entries
    { st with
      entries := entries',
      statusMessage :=
        if removable.isEmpty then st.statusMessage
        else "Cleared " ++ toString removable.length ++ " finished item(s)." }

/-- The processed line list of `enqueue_urls`: keep the non-blank lines,
each stripped. -/
def procOf (xs : List (List Char)) : List (List Char) :=
  (xs.filter (fun l => !(stripL l).isEmpty)).map stripL

/-- A concrete progress dictionary: 50 of 100 bytes downloaded at exactly
1.5 MB/s with 10 seconds to go. -/
def hookSample : HookData :=
  { status := "downloading", downloaded_bytes := some (.pyInt 50),
    total_bytes := some (.pyInt 100), speed := some (.pyFloat 1572864),
    eta := some (.pyInt 10) }

/-- Modelled from the spec: the "downloading" progress message as §4.2
words it, with the speed rendered in MB/s to ONE decimal place.  Differs
from the source only in the speed precision; used solely to compare the
claimed format against `progressHook`. -/
def specDownloadingMessage (d : HookData) : String :=
  let downloaded : ℚ := (d.downloaded_bytes.map PyNum.toQ).getD 0
  let percent : ℚ := downloaded / totalOf d * 100
  let speed_text : String :=
    match d.speed with
    | some v => formatFixed (v.toQ / 1024 / 1024) 1 ++ " MB/s"
    | none => "N/A"
  let eta_text : String :=
    match d.eta with
    | some (.pyInt n) => toString n ++ "s"
    | _ => "N/A"
  formatFixed percent 1 ++ "% | " ++ speed_text ++ " | ETA: " ++ eta_text

/-- The non-blank lines of a submitted text (the lines whose `strip()` is
non-empty). -/
def nonBlankLines (s : String) : List String :=
  (pySplitlines s).filter (fun l => !(isBlank l))

/-- One user enqueue interaction: type `op.1` into the URL box, select
preset `op.2` globally, and press "Add To Queue". -/
def enqueueOp (st : AppState) (op : String × String) : AppState :=
  enqueueUrls { st with urlInputText := op.1, globalQuality := op.2 }

/-! ## Claim theorems -/

/-- C2: `DownloadWorker.run` absorbs every exception of its body and emits
exactly one `finished` event (`workerRunFinished` is a total function into
one pair): success on normal completion without cancellation,
`"Download canceled."` for a capability error or completion under the
cancel flag, `"Download failed: <msg>"` for a capability error without
cancellation, and `"Error: <msg>"` for any other exception. -/
theorem worker_run_finished_classification (cancelled : Bool) (body : Except DlExc Unit) :
    (body = .ok () → cancelled = false →
      workerRunFinished cancelled body = (true, "Download completed successfully.")) ∧
    (cancelled = true → (body = .ok () ∨ ∃ m, body = .error (.downloadError m)) →
      workerRunFinished cancelled body = (false, "Download canceled.")) ∧
    (∀ m, body = .error (.downloadError m) → cancelled = false →
      workerRunFinished cancelled body = (false, "Download failed: " ++ m)) ∧
    (∀ m, body = .error (.otherExc m) →
      workerRunFinished cancelled body = (false, "Error: " ++ m)) := by
  refine ⟨?_, ?_, ?_, ?_⟩
  · rintro rfl rfl; rfl
  · rintro rfl (rfl | ⟨m, rfl⟩) <;> rfl
  · rintro m rfl rfl; rfl
  · rintro m rfl; rfl

/-- Witness for C2: the four outcome classes at concrete inputs. -/
theorem worker_run_finished_classification_check :
    workerRunFinished false (.ok ()) = (true, "Download completed successfully.") ∧
    workerRunFinished true (.error (.downloadError "boom")) = (false, "Download canceled.") ∧
    workerRunFinished false (.error (.downloadError "boom")) = (false, "Download failed: boom") ∧
    workerRunFinished true (.error (.otherExc "oops")) = (false, "Error: oops") :=
  ⟨(worker_run_finished_classification false (.ok ())).1 rfl rfl,
   (worker_run_finished_classification true (.error (.downloadError "boom"))).2.1 rfl
     (Or.inr ⟨"boom", rfl⟩),
   (worker_run_finished_classification false (.error (.downloadError "boom"))).2.2.1 "boom" rfl rfl,
   (worker_run_finished_classification true (.error (.otherExc "oops"))).2.2.2 "oops" rfl⟩

/-- C6: known preset names resolve to their own configuration; every name
outside the table resolves to the default preset's configuration, with no
error (the function is total). -/
theorem preset_resolution_fallback :
    (∀ name cfg, (name, cfg) ∈ QUALITY_PRESETS → resolvePreset name = cfg) ∧
    (∀ name, name ∉ presetNames →
      resolvePreset name = resolvePreset "Best (Video + Audio)") := by
  constructor
  · intro name cfg h
    fin_cases h <;> rfl
  · intro name h
    simp only [presetNames, QUALITY_PRESETS, List.map_cons, List.map_nil, List.mem_cons,
      List.not_mem_nil, or_false, not_or] at h
    obtain ⟨h1, h2, h3, h4⟩ := h
    have e1 : (("Best (Video + Audio)" : String) == name) = false :=
      beq_eq_false_iff_ne.mpr (Ne.symm h1)
    have e2 : (("1080p (MP4)" : String) == name) = false :=
      beq_eq_false_iff_ne.mpr (Ne.symm h2)
    have e3 : (("720p (MP4)" : String) == name) = false :=
      beq_eq_false_iff_ne.mpr (Ne.symm h3)
    have e4 : (("Audio Only (MP3)" : String) == name) = false :=
      beq_eq_false_iff_ne.mpr (Ne.symm h4)
    simp [resolvePreset, presetLookup, QUALITY_PRESETS, List.find?, e1, e2, e3, e4]

/-- Witness for C6: a named preset resolves to its own configuration, and
the unknown name "Potato" resolves to the default configuration. -/
theorem preset_resolution_fallback_check :
    resolvePreset "720p (MP4)"
      = { format := "bestvideo[height<=720]+bestaudio/best[height<=720]/best",
          merge_output_format := some "mp4" } ∧
    ("Potato" : String) ∉ presetNames ∧
    resolvePreset "Potato" = resolvePreset "Best (Video + Audio)" :=
  ⟨preset_resolution_fallback.1 "720p (MP4)" _ (by decide),
   by decide,
   preset_resolution_fallback.2 "Potato" (by decide)⟩

/-- C8: while the queue is running, `remove_selected_items` and
`clear_finished_items` return without mutating anything. -/
theorem queue_mutators_noop_while_running (st : AppState) (h : st.queueRunning = true) :
    (∀ selected, removeSelected st selected = st) ∧ clearFinished st = st := by
  constructor
  · intro selected
    simp [removeSelected, h]
  · simp [clearFinished, h]

/-- Witness for C8 at a concrete running state. -/
theorem queue_mutators_noop_while_running_check :
    removeSelected
        { entries := [{ url := "https://x.test/a", quality := "Best (Video + Audio)",
                        status := "Done", progress := "100%" }],
          queueRunning := true } [0]
      = { entries := [{ url := "https://x.test/a", quality := "Best (Video + Audio)",
                        status := "Done", progress := "100%" }],
          queueRunning := true } ∧
    clearFinished
        { entries := [{ url := "https://x.test/a", quality := "Best (Video + Audio)",
                        status := "Done", progress := "100%" }],
          queueRunning := true }
      = { entries := [{ url := "https://x.test/a", quality := "Best (Video + Audio)",
                        status := "Done", progress := "100%" }],
          queueRunning := true } :=
  ⟨(queue_mutators_noop_while_running _ rfl).1 [0],
   (queue_mutators_noop_while_running _ rfl).2⟩

/-- C9: `start_queue` is a silent no-op when already running, and a pure
validation failure (state unchanged, modal message shown, `running` still
false) when the output directory is blank or no entry is queued. -/
theorem start_queue_validation_noop (st : AppState) :
    (st.queueRunning = true → startQueue st = (st, none)) ∧
    (st.queueRunning = false → pyStrip st.outputText = "" →
      startQueue st = (st, some "Please select an output folder.")) ∧
    (st.queueRunning = false → pyStrip st.outputText ≠ "" →
      nextQueuedRow st.entries = none →
      startQueue st = (st, some "Add URLs to the queue first.")) := by
  refine ⟨?_, ?_, ?_⟩
  · intro h
    simp [startQueue, h]
  · intro h hb
    have hb' : (pyStrip st.outputText).data.isEmpty = true := by
      rw [hb]; rfl
    simp [startQueue, h, hb']
  · intro h hb hq
    have hb' : (pyStrip st.outputText).data.isEmpty = false := by
      cases hE : (pyStrip st.outputText).data.isEmpty
      · rfl
      · exact absurd (String.ext (List.isEmpty_iff.mp hE)) hb
    simp [startQueue, h, hb', hq]

/-- Witness for C9: the three guarded exits at concrete states. -/
theorem start_queue_validation_noop_check :
    startQueue { entries := [], queueRunning := true }
      = ({ entries := [], queueRunning := true }, none) ∧
    startQueue { entries := [], outputText := "  " }
      = ({ entries := [], outputText := "  " }, some "Please select an output folder.") ∧
    startQueue
        { entries := [{ url := "u", quality := "Best (Video + Audio)",
                        status := "Done", progress := "100%" }],
          outputText := "/tmp/out" }
      = ({ entries := [{ url := "u", quality := "Best (Video + Audio)",
                         status := "Done", progress := "100%" }],
           outputText := "/tmp/out" }, some "Add URLs to the queue first.") :=
  ⟨(start_queue_validation_noop _).1 rfl,
   (start_queue_validation_noop _).2.1 rfl rfl,
   (start_queue_validation_noop _).2.2 rfl (by decide) (by decide)⟩

theorem setRowStatus_get? (es : List QueueEntry) (r : Nat) (s : String) (i : Nat) :
    (setRowStatus es r s).get? i
      = if i = r then (es.get? r).map (fun e => { e with status := s }) else es.get? i := by
  induction es generalizing r i with
  | nil => simp [setRowStatus]
  | cons e t ih =>
    cases r with
    | zero =>
      cases i with
      | zero => simp [setRowStatus]
      | succ j => simp [setRowStatus]
    | succ rr =>
      cases i with
      | zero => simp [setRowStatus]
      | succ j => simpa [setRowStatus] using ih rr j

theorem setRowProgress_get? (es : List QueueEntry) (r : Nat) (p : String) (i : Nat) :
    (setRowProgress es r p).get? i
      = if i = r then (es.get? r).map (fun e => { e with progress := p }) else es.get? i := by
  induction es generalizing r i with
  | nil => simp [setRowProgress]
  | cons e t ih =>
    cases r with
    | zero =>
      cases i with
      | zero => simp [setRowProgress]
      | succ j => simp [setRowProgress]
    | succ rr =>
      cases i with
      | zero => simp [setRowProgress]
      | succ j => simpa [setRowProgress] using ih rr j

/-- C1: on `finished(success, message)` with an active row, success maps
the row to `Done` with progress `"100%"`; an unsuccessful message that
case-insensitively contains `"cancel"` maps it to `Canceled` keeping the
last-seen progress text; any other unsuccessful message maps it to
`Failed` with progress reset to `"0%"`; all other rows are untouched. -/
theorem on_item_finished_terminal_mapping (st : AppState) (r : Nat) (msg : String)
    (h : st.currentRow = some r) :
    ((onItemFinished st true msg).entries.get? r
        = (st.entries.get? r).map (fun e => { e with status := "Done", progress := "100%" })) ∧
    (containsCancel msg = true →
      (onItemFinished st false msg).entries.get? r
        = (st.entries.get? r).map (fun e => { e with status := "Canceled" })) ∧
    (containsCancel msg = false →
      (onItemFinished st false msg).entries.get? r
        = (st.entries.get? r).map (fun e => { e with status := "Failed", progress := "0%" })) ∧
    (∀ (success : Bool) (i : Nat), i ≠ r →
      (onItemFinished st success msg).entries.get? i = st.entries.get? i) := by
  refine ⟨?_, ?_, ?_, ?_⟩
  · simp only [onItemFinished, h, eq_self_iff_true, if_true]
    rw [setRowProgress_get?, if_pos rfl, setRowStatus_get?, if_pos rfl, Option.map_map]
    cases st.entries.get? r <;> rfl
  · intro hc
    simp only [onItemFinished, h, hc, Bool.false_eq_true, if_false, if_true]
    rw [setRowProgress_get?, if_pos rfl, setRowStatus_get?, if_pos rfl, Option.map_map]
    cases st.entries.get? r <;> rfl
  · intro hc
    simp only [onItemFinished, h, hc, Bool.false_eq_true, if_false]
    rw [setRowProgress_get?, if_pos rfl, setRowStatus_get?, if_pos rfl, Option.map_map]
    cases st.entries.get? r <;> rfl
  · intro success i hi
    cases success with
    | true =>
      simp only [onItemFinished, h, eq_self_iff_true, if_true]
      rw [setRowProgress_get?, if_neg hi, setRowStatus_get?, if_neg hi]
    | false =>
      by_cases hc : containsCancel msg
      · simp only [onItemFinished, h, hc, Bool.false_eq_true, if_false, if_true]
        rw [setRowProgress_get?, if_neg hi, setRowStatus_get?, if_neg hi]
      · simp only [onItemFinished, h, eq_false hc, Bool.false_eq_true, if_false]
        rw [setRowProgress_get?, if_neg hi, setRowStatus_get?, if_neg hi]

/-- Witness for C1 at a concrete two-row state with an active first row:
the three terminal outcomes and the untouched second row. -/
theorem on_item_finished_terminal_mapping_check :
    (onItemFinished
        { entries := [{ url := "a", quality := "Best (Video + Audio)",
                        status := "Downloading", progress := "42.3%" },
                      { url := "b", quality := "Best (Video + Audio)",
                        status := "Queued", progress := "0%" }],
          queueRunning := true, currentRow := some 0 } true
        "Download completed successfully.").entries.get? 0
      = some { url := "a", quality := "Best (Video + Audio)",
               status := "Done", progress := "100%" } ∧
    (onItemFinished
        { entries := [{ url := "a", quality := "Best (Video + Audio)",
                        status := "Downloading", progress := "42.3%" },
                      { url := "b", quality := "Best (Video + Audio)",
                        status := "Queued", progress := "0%" }],
          queueRunning := true, currentRow := some 0 } false
        "Download canceled.").entries.get? 0
      = some { url := "a", quality := "Best (Video + Audio)",
               status := "Canceled", progress := "42.3%" } ∧
    (onItemFinished
        { entries := [{ url := "a", quality := "Best (Video + Audio)",
                        status := "Downloading", progress := "42.3%" },
                      { url := "b", quality := "Best (Video + Audio)",
                        status := "Queued", progress := "0%" }],
          queueRunning := true, currentRow := some 0 } false
        "Download failed: HTTP 403").entries.get? 0
      = some { url := "a", quality := "Best (Video + Audio)",
               status := "Failed", progress := "0%" } ∧
    (onItemFinished
        { entries := [{ url := "a", quality := "Best (Video + Audio)",
                        status := "Downloading", progress := "42.3%" },
                      { url := "b", quality := "Best (Video + Audio)",
                        status := "Queued", progress := "0%" }],
          queueRunning := true, currentRow := some 0 } false
        "Download canceled.").entries.get? 1
      = some { url := "b", quality := "Best (Video + Audio)",
               status := "Queued", progress := "0%" } :=
  ⟨(on_item_finished_terminal_mapping _ 0 _ rfl).1,
   (on_item_finished_terminal_mapping _ 0 _ rfl).2.1 (by decide),
   (on_item_finished_terminal_mapping _ 0 _ rfl).2.2.1 (by decide),
   (on_item_finished_terminal_mapping _ 0 _ rfl).2.2.2 false 1 (by decide)⟩

/-- C10: an unsuccessful finish whose message indicates cancellation sets
`stop_queue_requested`, marks the active row `Canceled`, and the next
scheduling step (`on_thread_finished`) finalizes the whole queue with
"Queue stopped." instead of starting the next queued row. -/
theorem cancellation_halts_queue (st : AppState) (r : Nat) (msg : String)
    (h : st.currentRow = some r) (hrun : st.queueRunning = true)
    (hmsg : containsCancel msg = true) :
    (onItemFinished st false msg).stopQueueRequested = true ∧
    (onItemFinished st false msg).entries.get? r
      = (st.entries.get? r).map (fun e => { e with status := "Canceled" }) ∧
    (onThreadFinished (onItemFinished st false msg)).statusMessage = "Queue stopped." ∧
    (onThreadFinished (onItemFinished st false msg)).queueRunning = false ∧
    (onThreadFinished (onItemFinished st false msg)).entries
      = (onItemFinished st false msg).entries := by
  have hstop : (onItemFinished st false msg).stopQueueRequested = true := by
    simp [onItemFinished, h, hmsg]
  have hrun' : (onItemFinished st false msg).queueRunning = true := by
    simp [onItemFinished, h, hmsg, hrun]
  refine ⟨hstop, ?_, ?_, ?_, ?_⟩
  · simp only [onItemFinished, h, hmsg, Bool.false_eq_true, if_false, if_true]
    rw [setRowProgress_get?, setRowStatus_get?]
    simp only [if_pos rfl, Option.map_map]
    cases st.entries.get? r <;> rfl
  · simp [onThreadFinished, hrun', startNextItem, hstop, finishQueue]
  · simp [onThreadFinished, hrun', startNextItem, hstop, finishQueue]
  · simp [onThreadFinished, hrun', startNextItem, hstop, finishQueue]

/-- Witness for C10 at a concrete state: the cancellation of row 0 halts
the queue even though row 1 is still queued. -/
theorem cancellation_halts_queue_check :
    (onItemFinished
        { entries := [{ url := "a", quality := "Best (Video + Audio)",
                        status := "Downloading", progress := "42.3%" },
                      { url := "b", quality := "Best (Video + Audio)",
                        status := "Queued", progress := "0%" }],
          queueRunning := true, currentRow := some 0, workerActive := true } false
        "Download canceled.").stopQueueRequested = true ∧
    (onThreadFinished (onItemFinished
        { entries := [{ url := "a", quality := "Best (Video + Audio)",
                        status := "Downloading", progress := "42.3%" },
                      { url := "b", quality := "Best (Video + Audio)",
                        status := "Queued", progress := "0%" }],
          queueRunning := true, currentRow := some 0, workerActive := true } false
        "Download canceled.")).statusMessage = "Queue stopped." ∧
    (onThreadFinished (onItemFinished
        { entries := [{ url := "a", quality := "Best (Video + Audio)",
                        status := "Downloading", progress := "42.3%" },
                      { url := "b", quality := "Best (Video + Audio)",
                        status := "Queued", progress := "0%" }],
          queueRunning := true, currentRow := some 0, workerActive := true } false
        "Download canceled.")).queueRunning = false :=
  ⟨(cancellation_halts_queue _ 0 _ rfl rfl (by decide)).1,
   (cancellation_halts_queue _ 0 _ rfl rfl (by decide)).2.2.1,
   (cancellation_halts_queue _ 0 _ rfl rfl (by decide)).2.2.2.1⟩

theorem foldl_eraseIdx_map_succ {α : Type} (a : α) (t : List α) (S : List Nat) :
    (S.map Nat.succ).foldl (fun es r => es.eraseIdx r) (a :: t)
      = a :: S.foldl (fun es r => es.eraseIdx r) t := by
  induction S generalizing t with
  | nil => rfl
  | cons s S' ih =>
    simp only [List.map_cons, List.foldl_cons, List.eraseIdx_cons_succ]
    exact ih (t.eraseIdx s)

theorem foldl_eraseIdx_filter (l : List QueueEntry) :
    (((List.range l.length).filter (fun r => rowTerminalAt l r)).reverse).foldl
        (fun es r => es.eraseIdx r) l
      = l.filter (fun e => !(isTerminalStatus e.status)) := by
  induction l with
  | nil => rfl
  | cons a t ih =>
    rw [List.length_cons, List.range_succ_eq_map, List.filter_cons, List.filter_map]
    have hcomp : ((fun r => rowTerminalAt (a :: t) r) ∘ Nat.succ)
        = (fun r => rowTerminalAt t r) := rfl
    have hc0 : rowTerminalAt (a :: t) 0 = isTerminalStatus a.status := rfl
    rw [hcomp, hc0]
    by_cases hp : isTerminalStatus a.status = true
    · rw [if_pos hp, List.reverse_cons, List.foldl_append, ← List.map_reverse,
        foldl_eraseIdx_map_succ]
      simp only [List.foldl_cons, List.foldl_nil, List.eraseIdx_cons_zero]
      rw [List.filter_cons, if_neg (by simp [hp])]
      exact ih
    · rw [if_neg hp, ← List.map_reverse, foldl_eraseIdx_map_succ]
      rw [List.filter_cons, if_pos (by simp [Bool.not_eq_true] at hp; simp [hp])]
      rw [ih]

/-- C7: with the queue stopped, `clear_finished_items` removes exactly the
rows whose status is `Done`, `Failed` or `Canceled`, leaving the remaining
rows and their relative order unchanged (the result is a filter of the
original row list). -/
theorem clear_finished_removes_exactly_terminal (st : AppState)
    (h : st.queueRunning = false) :
    (clearFinished st).entries = st.entries.filter (fun e => !(isTerminalStatus e.status)) := by
  simp only [clearFinished, h, Bool.false_eq_true, if_false]
  exact foldl_eraseIdx_filter st.entries

/-- Witness for C7 at a concrete mixed-status queue: exactly the `Done`,
`Failed` and `Canceled` rows disappear; the `Queued` rows keep their
order. -/
theorem clear_finished_removes_exactly_terminal_check :
    (clearFinished
        { entries := [{ url := "a", quality := "Best (Video + Audio)",
                        status := "Done", progress := "100%" },
                      { url := "b", quality := "Best (Video + Audio)",
                        status := "Queued", progress := "0%" },
                      { url := "c", quality := "Best (Video + Audio)",
                        status := "Failed", progress := "0%" },
                      { url := "d", quality := "Best (Video + Audio)",
                        status := "Canceled", progress := "13.0%" },
                      { url := "e", quality := "Best (Video + Audio)",
                        status := "Queued", progress := "0%" }] }).entries
      = [{ url := "b", quality := "Best (Video + Audio)",
           status := "Queued", progress := "0%" },
         { url := "e", quality := "Best (Video + Audio)",
           status := "Queued", progress := "0%" }] :=
  clear_finished_removes_exactly_terminal _ rfl

/-- C3 counterexample: the claim quantifies over every progress-hook
invocation, but a `"finished"`-status invocation with no byte totals emits
`(100, "Download complete, processing file...")` — a positive percent with
the total unknown, and not `(0, "Downloading...")`. -/
theorem progress_hook_positive_percent_refuted :
    ¬ (∀ (cancelled : Bool) (d : HookData) (evs : List (ℚ × String)),
        progressHook cancelled d = .ok evs →
        ∀ p m, (p, m) ∈ evs →
          (0 < p → 0 < totalOf d) ∧
          (¬ 0 < totalOf d → (p, m) = (0, "Downloading..."))) := by
  intro hcl
  have h := hcl false { status := "finished" } [(100, "Download complete, processing file...")]
    rfl 100 "Download complete, processing file..." (List.mem_singleton.mpr rfl)
  have h1 := h.1 (by decide)
  have h0 : totalOf { status := "finished" } = 0 := rfl
  rw [h0] at h1
  exact absurd h1 (lt_irrefl 0)

/-- C3 amended: restricted to hook invocations with status
`"downloading"`, a positive percent is emitted only when the total
(`total_bytes`, or else `total_bytes_estimate`) is known and positive, and
with the total unknown or zero the single emitted event is exactly
`(0, "Downloading...")`. -/
theorem progress_hook_downloading_percent_guard (cancelled : Bool) (d : HookData)
    (hs : d.status = "downloading") (evs : List (ℚ × String))
    (hev : progressHook cancelled d = .ok evs) :
    ∀ p m, (p, m) ∈ evs →
      (0 < p → 0 < totalOf d) ∧ (¬ 0 < totalOf d → (p, m) = (0, "Downloading...")) := by
  intro p m hm
  cases cancelled with
  | true => simp [progressHook] at hev
  | false =>
    simp only [progressHook, hs, Bool.false_eq_true, if_false, beq_self_eq_true, if_true] at hev
    by_cases ht : 0 < totalOf d
    · rw [if_pos ht] at hev
      constructor
      · intro _; exact ht
      · intro hnt; exact absurd ht hnt
    · rw [if_neg ht] at hev
      simp only [Except.ok.injEq] at hev
      subst hev
      rw [List.mem_singleton, Prod.mk.injEq] at hm
      obtain ⟨hp0, hm0⟩ := hm
      constructor
      · intro hp
        rw [hp0] at hp
        exact absurd hp (lt_irrefl 0)
      · intro _
        rw [hp0, hm0]

/-- Witness for C3 at a concrete downloading invocation with no byte
totals: the hook emits exactly `(0, "Downloading...")`. -/
theorem progress_hook_downloading_percent_guard_check :
    ((0 : ℚ), ("Downloading..." : String)) = ((0 : ℚ), "Downloading...") :=
  (progress_hook_downloading_percent_guard false { status := "downloading" } rfl
      [(0, "Downloading...")] rfl 0 "Downloading..." (List.mem_singleton.mpr rfl)).2
    (by decide)

theorem totalOf_hookSample : totalOf hookSample = 100 := by
  norm_num [totalOf, hookSample, pyTruthyNum, PyNum.toQ]

theorem downloaded_hookSample : (hookSample.downloaded_bytes.map PyNum.toQ).getD 0 = 50 := by
  norm_num [hookSample, PyNum.toQ]

theorem formatFixed_fifty_one : formatFixed (50 : ℚ) 1 = "50.0" := by
  have h : Int.floor ((50 : ℚ) * (10 : ℚ) ^ 1 + 1 / 2) = 500 := by
    rw [Int.floor_eq_iff]; norm_num
  simp only [formatFixed]
  rw [h]
  decide

theorem formatFixed_speed_two : formatFixed ((PyNum.pyFloat 1572864).toQ / 1024 / 1024) 2 = "1.50" := by
  have h : (PyNum.pyFloat 1572864).toQ / 1024 / 1024 = 3 / 2 := by
    norm_num [PyNum.toQ]
  have h2 : Int.floor ((3 / 2 : ℚ) * (10 : ℚ) ^ 2 + 1 / 2) = 150 := by
    rw [Int.floor_eq_iff]; norm_num
  rw [h]
  simp only [formatFixed]
  rw [h2]
  decide

theorem formatFixed_speed_one : formatFixed ((PyNum.pyFloat 1572864).toQ / 1024 / 1024) 1 = "1.5" := by
  have h : (PyNum.pyFloat 1572864).toQ / 1024 / 1024 = 3 / 2 := by
    norm_num [PyNum.toQ]
  have h2 : Int.floor ((3 / 2 : ℚ) * (10 : ℚ) ^ 1 + 1 / 2) = 15 := by
    rw [Int.floor_eq_iff]; norm_num
  rw [h]
  simp only [formatFixed]
  rw [h2]
  decide

/-- C4 counterexample: at 1.5 MB/s the source renders the speed with two
decimal places (`:.2f`), so the emitted message differs from the claimed
one-decimal-place rendering. -/
theorem progress_hook_speed_decimals_refuted :
    progressHook false hookSample = .ok [(50, "50.0% | 1.50 MB/s | ETA: 10s")] ∧
    specDownloadingMessage hookSample = "50.0% | 1.5 MB/s | ETA: 10s" ∧
    ("50.0% | 1.50 MB/s | ETA: 10s" : String) ≠ "50.0% | 1.5 MB/s | ETA: 10s" := by
  have h1 : hookSample.status = "downloading" := rfl
  have h2 : hookSample.speed = some (.pyFloat 1572864) := rfl
  have h3 : hookSample.eta = some (.pyInt 10) := rfl
  have h5 : (50 : ℚ) / 100 * 100 = 50 := by norm_num
  refine ⟨?_, ?_, by decide⟩
  · simp only [progressHook, h1, h2, h3, Bool.false_eq_true, if_false, beq_self_eq_true,
      if_true, totalOf_hookSample, downloaded_hookSample]
    rw [if_pos (by norm_num : (0 : ℚ) < 100)]
    rw [h5, formatFixed_fifty_one, formatFixed_speed_two]
    simp only [Except.ok.injEq, List.cons.injEq, Prod.mk.injEq, and_true]
    exact ⟨trivial, by decide⟩
  · simp only [specDownloadingMessage, h2, h3, totalOf_hookSample, downloaded_hookSample]
    rw [h5, formatFixed_fifty_one, formatFixed_speed_one]
    decide

/-- C4 amended: for a "downloading" invocation with a known positive
total, the emitted message is
`"<percent:.1f>% | <speed> | ETA: <eta>"`, where the speed component is
the transfer speed in MB/s with TWO decimal places (`:.2f`) when the
capability reports a numeric speed and `"N/A"` otherwise, and the ETA
component is `"<eta>s"` for an integer ETA and `"N/A"` otherwise. -/
theorem progress_hook_downloading_message_format (d : HookData)
    (hs : d.status = "downloading") (ht : 0 < totalOf d) :
    progressHook false d
      = .ok [((d.downloaded_bytes.map PyNum.toQ).getD 0 / totalOf d * 100,
          formatFixed ((d.downloaded_bytes.map PyNum.toQ).getD 0 / totalOf d * 100) 1
          ++ "% | "
          ++ (match d.speed with
              | some v => formatFixed (v.toQ / 1024 / 1024) 2 ++ " MB/s"
              | none => "N/A")
          ++ " | ETA: "
          ++ (match d.eta with
              | some (PyNum.pyInt n) => toString n ++ "s"
              | _ => "N/A"))] := by
  simp only [progressHook, hs, Bool.false_eq_true, if_false, beq_self_eq_true, if_true]
  rw [if_pos ht]

/-- Witness for C4 at the concrete `hookSample` dictionary. -/
theorem progress_hook_downloading_message_format_check :
    progressHook false hookSample
      = .ok [((hookSample.downloaded_bytes.map PyNum.toQ).getD 0 / totalOf hookSample * 100,
          formatFixed ((hookSample.downloaded_bytes.map PyNum.toQ).getD 0
              / totalOf hookSample * 100) 1
          ++ "% | "
          ++ (match hookSample.speed with
              | some v => formatFixed (v.toQ / 1024 / 1024) 2 ++ " MB/s"
              | none => "N/A")
          ++ " | ETA: "
          ++ (match hookSample.eta with
              | some (PyNum.pyInt n) => toString n ++ "s"
              | _ => "N/A"))] :=
  progress_hook_downloading_message_format hookSample rfl
    (by rw [totalOf_hookSample]; norm_num)

/-! ### Line/whitespace lemmas for the enqueue claim -/

theorem procOf_cons (x : List Char) (xs : List (List Char)) :
    procOf (x :: xs)
      = (if (stripL x).isEmpty then [] else [stripL x]) ++ procOf xs := by
  simp only [procOf, List.filter_cons]
  cases h : (stripL x).isEmpty <;> simp [h]

theorem splitLinesAux_cr (rest : List Char) (acc : List Char)
    (h : ∀ rest', rest ≠ '\n' :: rest') :
    splitLinesAux ('\r' :: rest) acc = acc.reverse :: splitLinesAux rest [] := by
  rw [splitLinesAux.eq_def]
  split
  all_goals try simp_all
  rename_i hcr hcn heq
  exact absurd heq.1.symm hcr

theorem splitLinesAux_ch (c : Char) (rest acc : List Char) (h1 : c ≠ '\r') (h2 : c ≠ '\n') :
    splitLinesAux (c :: rest) acc = splitLinesAux rest (c :: acc) := by
  rw [splitLinesAux.eq_def]
  split
  all_goals try simp_all

theorem stripL_cons_space (c : Char) (l : List Char) (hc : isSpaceChar c = true) :
    stripL (c :: l) = stripL l := by
  simp only [stripL, List.dropWhile_cons_of_pos hc]

theorem stripL_append_space (l : List Char) (c : Char) (hc : isSpaceChar c = true) :
    stripL (l ++ [c]) = stripL l := by
  simp only [stripL]
  rw [List.dropWhile_append]
  by_cases h : (l.dropWhile isSpaceChar).isEmpty
  · rw [if_pos h, List.isEmpty_iff.mp h]
    have hssc : List.dropWhile isSpaceChar [c] = [] := by
      simp [List.dropWhile_cons_of_pos hc]
    rw [hssc]
  · rw [if_neg h, List.reverse_append]
    simp only [List.reverse_cons, List.reverse_nil, List.nil_append, List.singleton_append]
    rw [List.dropWhile_cons_of_pos hc]

theorem procOf_splitLinesAux_nil (acc : List Char) :
    procOf (splitLinesAux [] acc)
      = if (stripL acc.reverse).isEmpty then [] else [stripL acc.reverse] := by
  by_cases h : acc.isEmpty = true
  · rw [List.isEmpty_iff.mp h]
    rfl
  · have e : splitLinesAux [] acc = [acc.reverse] := by
      rw [splitLinesAux.eq_def]
      simp [h]
    rw [e, procOf_cons]
    cases hs : (stripL acc.reverse).isEmpty <;> simp [procOf]

theorem procOf_splitLinesAux_congr (t acc₁ : List Char) :
    ∀ acc₂ : List Char,
      (∀ r, stripL (acc₁.reverse ++ r) = stripL (acc₂.reverse ++ r)) →
      procOf (splitLinesAux t acc₁) = procOf (splitLinesAux t acc₂) := by
  induction t, acc₁ using splitLinesAux.induct with
  | case1 acc h =>
    intro acc₂ hh
    have hr : stripL acc.reverse = stripL acc₂.reverse := by simpa using hh []
    rw [procOf_splitLinesAux_nil, procOf_splitLinesAux_nil, hr]
  | case2 acc h =>
    intro acc₂ hh
    have hr : stripL acc.reverse = stripL acc₂.reverse := by simpa using hh []
    rw [procOf_splitLinesAux_nil, procOf_splitLinesAux_nil, hr]
  | case3 rest acc ih =>
    intro acc₂ hh
    have hr : stripL acc.reverse = stripL acc₂.reverse := by simpa using hh []
    have e : ∀ a : List Char,
        splitLinesAux ('\r' :: '\n' :: rest) a = a.reverse :: splitLinesAux rest [] :=
      fun a => rfl
    rw [e, e, procOf_cons, procOf_cons, hr]
  | case4 rest acc hne ih =>
    intro acc₂ hh
    have hr : stripL acc.reverse = stripL acc₂.reverse := by simpa using hh []
    have hne' : ∀ rest', rest ≠ '\n' :: rest' := fun rest' hcon => hne rest' hcon
    rw [splitLinesAux_cr rest acc hne', splitLinesAux_cr rest acc₂ hne',
      procOf_cons, procOf_cons, hr]
  | case5 rest acc ih =>
    intro acc₂ hh
    have hr : stripL acc.reverse = stripL acc₂.reverse := by simpa using hh []
    have e : ∀ a : List Char,
        splitLinesAux ('\n' :: rest) a = a.reverse :: splitLinesAux rest [] :=
      fun a => rfl
    rw [e, e, procOf_cons, procOf_cons, hr]
  | case6 c rest acc hcrlf hcr hcn ih =>
    intro acc₂ hh
    have hcr' : c ≠ '\r' := fun hx => hcr hx
    have hcn' : c ≠ '\n' := fun hx => hcn hx
    rw [splitLinesAux_ch c rest acc hcr' hcn', splitLinesAux_ch c rest acc₂ hcr' hcn']
    apply ih
    intro r
    have := hh (c :: r)
    simpa [List.reverse_cons, List.append_assoc] using this

theorem procOf_splitLinesAux_space (ws acc : List Char) :
    ws.all isSpaceChar = true →
      procOf (splitLinesAux ws acc)
        = if (stripL acc.reverse).isEmpty then [] else [stripL acc.reverse] := by
  induction ws, acc using splitLinesAux.induct with
  | case1 acc h =>
    intro _
    rw [procOf_splitLinesAux_nil]
  | case2 acc h =>
    intro _
    rw [procOf_splitLinesAux_nil]
  | case3 rest acc ih =>
    intro hws
    simp only [List.all_cons, Bool.and_eq_true] at hws
    have e : splitLinesAux ('\r' :: '\n' :: rest) acc = acc.reverse :: splitLinesAux rest [] := rfl
    rw [e, procOf_cons, ih hws.2.2]
    simp [stripL]
  | case4 rest acc hne ih =>
    intro hws
    simp only [List.all_cons, Bool.and_eq_true] at hws
    have hne' : ∀ rest', rest ≠ '\n' :: rest' := fun rest' hcon => hne rest' hcon
    rw [splitLinesAux_cr rest acc hne', procOf_cons, ih hws.2]
    simp [stripL]
  | case5 rest acc ih =>
    intro hws
    simp only [List.all_cons, Bool.and_eq_true] at hws
    have e : splitLinesAux ('\n' :: rest) acc = acc.reverse :: splitLinesAux rest [] := rfl
    rw [e, procOf_cons, ih hws.2]
    simp [stripL]
  | case6 c rest acc hcrlf hcr hcn ih =>
    intro hws
    simp only [List.all_cons, Bool.and_eq_true] at hws
    have hcr' : c ≠ '\r' := fun hx => hcr hx
    have hcn' : c ≠ '\n' := fun hx => hcn hx
    rw [splitLinesAux_ch c rest acc hcr' hcn', ih hws.2]
    have hstr : stripL ((c :: acc).reverse) = stripL acc.reverse := by
      rw [List.reverse_cons]
      exact stripL_append_space acc.reverse c hws.1
    rw [hstr]

theorem procOf_splitLinesAux_append_space (ws : List Char)
    (hws : ws.all isSpaceChar = true) (t acc : List Char) :
    procOf (splitLinesAux (t ++ ws) acc) = procOf (splitLinesAux t acc) := by
  induction t, acc using splitLinesAux.induct with
  | case1 acc h =>
    rw [List.nil_append, procOf_splitLinesAux_space ws acc hws, procOf_splitLinesAux_nil]
  | case2 acc h =>
    rw [List.nil_append, procOf_splitLinesAux_space ws acc hws, procOf_splitLinesAux_nil]
  | case3 rest acc ih =>
    have e1 : splitLinesAux (('\r' :: '\n' :: rest) ++ ws) acc
        = acc.reverse :: splitLinesAux (rest ++ ws) [] := rfl
    have e2 : splitLinesAux ('\r' :: '\n' :: rest) acc
        = acc.reverse :: splitLinesAux rest [] := rfl
    rw [e1, e2, procOf_cons, procOf_cons, ih]
  | case4 rest acc hne ih =>
    cases rest with
    | nil =>
      cases hwc : ws with
      | nil => rfl
      | cons w ws' =>
        have hw : isSpaceChar w = true ∧ ws'.all isSpaceChar = true := by
          rw [hwc] at hws
          simpa [List.all_cons] using hws
        have hws' : ws'.all isSpaceChar = true := hw.2
        by_cases hwn : w = '\n'
        · subst hwn
          have e1 : splitLinesAux (('\r' : Char) :: '\n' :: ws') acc
              = acc.reverse :: splitLinesAux ws' [] := rfl
          have e2 : splitLinesAux ['\r'] acc = acc.reverse :: splitLinesAux [] [] := rfl
          rw [List.cons_append, List.nil_append, e1, e2, procOf_cons, procOf_cons,
            procOf_splitLinesAux_space ws' [] hws']
          simp [stripL, procOf, splitLinesAux]
        · have hne2 : ∀ r', w :: ws' ≠ '\n' :: r' := by
            intro r' hcon
            exact hwn (by
              have := congrArg (fun l => l.headD ' ') hcon
              simpa using this)
          have e2 : splitLinesAux ['\r'] acc = acc.reverse :: splitLinesAux [] [] := rfl
          rw [List.cons_append, List.nil_append, splitLinesAux_cr (w :: ws') acc hne2, e2,
            procOf_cons, procOf_cons, procOf_splitLinesAux_space (w :: ws') [] (hwc ▸ hws)]
          simp [stripL, procOf, splitLinesAux]
    | cons c' rest' =>
      have hc' : c' ≠ '\n' := by
        intro hx
        exact hne rest' (by rw [hx])
      have hne1 : ∀ r', (c' :: rest') ++ ws ≠ '\n' :: r' := by
        intro r' hcon
        rw [List.cons_append] at hcon
        exact hc' (by
          have := congrArg (fun l => l.headD ' ') hcon
          simpa using this)
      have hne2 : ∀ r', c' :: rest' ≠ '\n' :: r' := by
        intro r' hcon
        exact hc' (by
          have := congrArg (fun l => l.headD ' ') hcon
          simpa using this)
      rw [List.cons_append, splitLinesAux_cr ((c' :: rest') ++ ws) acc hne1,
        splitLinesAux_cr (c' :: rest') acc hne2, procOf_cons, procOf_cons, ih]
  | case5 rest acc ih =>
    have e1 : splitLinesAux (('\n' :: rest) ++ ws) acc
        = acc.reverse :: splitLinesAux (rest ++ ws) [] := rfl
    have e2 : splitLinesAux ('\n' :: rest) acc = acc.reverse :: splitLinesAux rest [] := rfl
    rw [e1, e2, procOf_cons, procOf_cons, ih]
  | case6 c rest acc hcrlf hcr hcn ih =>
    have hcr' : c ≠ '\r' := fun hx => hcr hx
    have hcn' : c ≠ '\n' := fun hx => hcn hx
    rw [List.cons_append, splitLinesAux_ch c (rest ++ ws) acc hcr' hcn',
      splitLinesAux_ch c rest acc hcr' hcn', ih]

theorem procOf_splitLinesAux_dropWhile (t : List Char) :
    procOf (splitLinesAux (t.dropWhile isSpaceChar) []) = procOf (splitLinesAux t []) := by
  induction t with
  | nil => rfl
  | cons c t' ih =>
    by_cases hc : isSpaceChar c = true
    · rw [List.dropWhile_cons_of_pos hc, ih]
      by_cases hcn : c = '\n'
      · subst hcn
        have e : splitLinesAux ('\n' :: t') [] = [] :: splitLinesAux t' [] := rfl
        rw [e, procOf_cons]
        simp [stripL]
      · by_cases hcr : c = '\r'
        · subst hcr
          cases t' with
          | nil => rfl
          | cons c'' t'' =>
            by_cases hc'' : c'' = '\n'
            · subst hc''
              have e1 : splitLinesAux ('\r' :: '\n' :: t'') [] = [] :: splitLinesAux t'' [] := rfl
              have e2 : splitLinesAux ('\n' :: t'') [] = [] :: splitLinesAux t'' [] := rfl
              rw [e1, e2]
            · have hne : ∀ r', c'' :: t'' ≠ '\n' :: r' := by
                intro r' hcon
                exact hc'' (by
                  have := congrArg (fun l => l.headD ' ') hcon
                  simpa using this)
              rw [splitLinesAux_cr (c'' :: t'') [] hne, procOf_cons]
              simp [stripL]
        · rw [splitLinesAux_ch c t' [] hcr hcn]
          exact (procOf_splitLinesAux_congr t' [c] []
            (fun r => by simpa using stripL_cons_space c r hc)).symm
    · rw [List.dropWhile_cons_of_neg (by simpa using hc)]

theorem procOf_splitLinesAux_stripL (t : List Char) :
    procOf (splitLinesAux (stripL t) []) = procOf (splitLinesAux t []) := by
  have hdec : t.dropWhile isSpaceChar
      = ((t.dropWhile isSpaceChar).reverse.dropWhile isSpaceChar).reverse
        ++ ((t.dropWhile isSpaceChar).reverse.takeWhile isSpaceChar).reverse := by
    conv_lhs => rw [← List.reverse_reverse (t.dropWhile isSpaceChar),
      ← List.takeWhile_append_dropWhile isSpaceChar (t.dropWhile isSpaceChar).reverse]
    rw [List.reverse_append]
  have hws : (((t.dropWhile isSpaceChar).reverse.takeWhile isSpaceChar).reverse).all
      isSpaceChar = true := by
    rw [List.all_reverse]
    exact List.all_takeWhile
  calc procOf (splitLinesAux (stripL t) [])
      = procOf (splitLinesAux (((t.dropWhile isSpaceChar).reverse.dropWhile
          isSpaceChar).reverse ++ ((t.dropWhile isSpaceChar).reverse.takeWhile
          isSpaceChar).reverse) []) :=
        (procOf_splitLinesAux_append_space _ hws _ []).symm
    _ = procOf (splitLinesAux (t.dropWhile isSpaceChar) []) := by rw [← hdec]
    _ = procOf (splitLinesAux t []) := procOf_splitLinesAux_dropWhile t

theorem nonBlank_map_strip (s : String) :
    ((pySplitlines s).filter (fun l => !(isBlank l))).map pyStrip
      = (procOf (splitLinesAux s.data [])).map String.mk := by
  simp only [pySplitlines, splitL]
  rw [List.filter_map]
  have hp : ((fun l => !(isBlank l)) ∘ String.mk)
      = (fun l : List Char => !(stripL l).isEmpty) := rfl
  rw [hp, List.map_map]
  have hm : (pyStrip ∘ String.mk) = (String.mk ∘ stripL) := rfl
  rw [hm, ← List.map_map]
  rfl

theorem foldl_appendQueueRow (urls : List String) (es : List QueueEntry) (q : String) :
    urls.foldl (fun es' u => appendQueueRow es' u q) es
      = es ++ urls.map (fun u =>
          { url := u, quality := rowQuality q, status := "Queued", progress := "0%" }) := by
  induction urls generalizing es with
  | nil => simp
  | cons u rest ih =>
    simp only [List.foldl_cons, List.map_cons]
    rw [ih]
    simp [appendQueueRow]

theorem enqueueUrls_entries (st : AppState) :
    (enqueueUrls st).entries
      = st.entries
        ++ (((pySplitlines st.urlInputText).filter (fun l => !(isBlank l))).map pyStrip).map
          (fun u => { url := u, quality := rowQuality st.globalQuality,
                      status := "Queued", progress := "0%" }) := by
  have hkey : ((pySplitlines (pyStrip st.urlInputText)).filter (fun l => !(isBlank l))).map pyStrip
      = ((pySplitlines st.urlInputText).filter (fun l => !(isBlank l))).map pyStrip := by
    rw [nonBlank_map_strip, nonBlank_map_strip]
    have hd : (pyStrip st.urlInputText).data = stripL st.urlInputText.data := rfl
    rw [hd, procOf_splitLinesAux_stripL]
  simp only [enqueueUrls]
  by_cases hb : (pyStrip st.urlInputText).data.isEmpty = true
  · rw [if_pos hb]
    have h1 : stripL st.urlInputText.data = [] := List.isEmpty_iff.mp hb
    have h0 : procOf (splitLinesAux st.urlInputText.data []) = [] := by
      rw [← procOf_splitLinesAux_stripL, h1]
      rfl
    rw [nonBlank_map_strip, h0]
    simp
  · rw [if_neg hb, foldl_appendQueueRow, hkey]

/-- C5: any sequence of enqueue operations appends exactly one `Queued`
row with progress `"0%"` per non-blank line of each submitted text, in
submitted order, with no de-duplication; hence the final row count is the
initial count plus the total number of non-blank lines submitted. -/
theorem enqueue_appends_nonblank_lines (st : AppState) (ops : List (String × String)) :
    ((ops.foldl enqueueOp st).entries
        = st.entries
          ++ (ops.map (fun op => (nonBlankLines op.1).map (fun l =>
                ({ url := pyStrip l, quality := rowQuality op.2,
                   status := "Queued", progress := "0%" } : QueueEntry)))).flatten) ∧
    ((ops.foldl enqueueOp st).entries.length
        = st.entries.length + (ops.map (fun op => (nonBlankLines op.1).length)).sum) ∧
    (∀ e ∈ (ops.map (fun op => (nonBlankLines op.1).map (fun l =>
          ({ url := pyStrip l, quality := rowQuality op.2,
             status := "Queued", progress := "0%" } : QueueEntry)))).flatten,
      e.status = "Queued" ∧ e.progress = "0%") := by
  have main : ∀ (ops' : List (String × String)) (s : AppState),
      (ops'.foldl enqueueOp s).entries
        = s.entries
          ++ (ops'.map (fun op => (nonBlankLines op.1).map (fun l =>
                ({ url := pyStrip l, quality := rowQuality op.2,
                   status := "Queued", progress := "0%" } : QueueEntry)))).flatten := by
    intro ops'
    induction ops' with
    | nil => intro s; simp
    | cons op rest ih =>
      intro s
      simp only [List.foldl_cons, List.map_cons, List.flatten_cons]
      rw [ih]
      have h1 : (enqueueOp s op).entries
          = s.entries ++ (nonBlankLines op.1).map (fun l =>
              ({ url := pyStrip l, quality := rowQuality op.2,
                 status := "Queued", progress := "0%" } : QueueEntry)) := by
        rw [enqueueOp, enqueueUrls_entries]
        simp only [nonBlankLines, List.map_map]
        rfl
      rw [h1, List.append_assoc]
  refine ⟨main ops st, ?_, ?_⟩
  · rw [main ops st]
    simp [List.length_flatten, List.map_map, Function.comp_def]
  · intro e he
    simp only [List.mem_flatten, List.mem_map] at he
    obtain ⟨bucket, ⟨op, hop, rfl⟩, he⟩ := he
    simp only [List.mem_map] at he
    obtain ⟨l, hl, rfl⟩ := he
    exact ⟨rfl, rfl⟩

/-- Witness for C5: one enqueue of a three-line text with one blank line
appends exactly the two non-blank lines, stripped, in order. -/
theorem enqueue_appends_nonblank_lines_check :
    ([(" https://x.test/a \nhttps://x.test/b\n\n", "720p (MP4)")].foldl enqueueOp
        { entries := [{ url := "old", quality := "Best (Video + Audio)",
                        status := "Done", progress := "100%" }] }).entries
      = [{ url := "old", quality := "Best (Video + Audio)",
           status := "Done", progress := "100%" },
         { url := "https://x.test/a", quality := "720p (MP4)",
           status := "Queued", progress := "0%" },
         { url := "https://x.test/b", quality := "720p (MP4)",
           status := "Queued", progress := "0%" }] := by
  rw [(enqueue_appends_nonblank_lines
    { entries := [{ url := "old", quality := "Best (Video + Audio)",
                    status := "Done", progress := "100%" }] }
    [(" https://x.test/a \nhttps://x.test/b\n\n", "720p (MP4)")]).1]
  decide

